import Mathlib

/-!
Verification of the ad-analytics application against its specification.

The definitions below are a shallow embedding of the Python source:
pure helpers become Lean functions on `ℚ`/`ℤ`, the campaign-fact table
becomes a list of fact records with the query-then-branch upsert of the
source, and the Stripe webhook handler becomes a state-transition
function on a billing state.  Python float arithmetic is modelled by
exact rational arithmetic; Python `round` (banker's rounding) and `int`
truncation are modelled explicitly.
-/

namespace Analyzer

/-! ### Python numeric primitives -/

/-- Python `int(x)`: truncation toward zero. -/
def pyInt (q : ℚ) : ℤ := if 0 ≤ q then ⌊q⌋ else ⌈q⌉

/-- Round a rational to the nearest integer, ties to even
(the rounding used by Python `round`). -/
def roundHalfEven (q : ℚ) : ℤ :=
  let f : ℤ := ⌊q⌋
  if q - f < 1/2 then f
  else if q - f > 1/2 then f + 1
  else if f % 2 = 0 then f else f + 1

/-- Python `round(x, ndigits)` on exact rationals. -/
def pyRound (q : ℚ) (ndigits : ℕ) : ℚ :=
  (roundHalfEven (q * 10 ^ ndigits) : ℚ) / 10 ^ ndigits

/-- Arithmetic mean of a list (Python `np.mean`); 0 on the empty list. -/
def listMean (l : List ℚ) : ℚ := (l.foldl (· + ·) 0) / l.length

/-- Population variance of a list, i.e. the square of `np.std`. -/
def popVar (l : List ℚ) : ℚ := listMean (l.map (fun x => (x - listMean l) ^ 2))

/-- Decides `Real.sqrt v > c` for `v ≥ 0` without leaving `ℚ`:
true when `c < 0`, otherwise compare squares. -/
def sqrtGtQ (v c : ℚ) : Bool := if c < 0 then true else decide (c ^ 2 < v)

/-- Decides `x > (5/2) * Real.sqrt v` for `v ≥ 0` without leaving `ℚ`. -/
def gtMulSqrt (x v : ℚ) : Bool := decide (0 < x) && decide ((25/4) * v < x ^ 2)

/-! ### Budget simulator (src/routes/optimization.py, budget_simulator_api)

The request payload fields are modelled as optional rationals (absent
field = `none`); each validation failure is an `Except.error` carrying
the message of the corresponding 400 response.  The projection
arithmetic and the `round` calls mirror lines 46-66 of the source. -/

structure BudgetScenario where
  budget : ℚ
  projected_clicks : ℚ
  projected_spend : ℚ
  projected_conversions : ℚ
  projected_cpa : ℚ
deriving DecidableEq, Repr

def budgetSimulator (current_cpc current_cvr_clicks : Option ℚ)
    (budget_scenarios : Option (List ℚ)) : Except String (List BudgetScenario) :=
  match current_cpc, current_cvr_clicks with
  | none, _ => .error "current_cpc and current_cvr_clicks are required."
  | _, none => .error "current_cpc and current_cvr_clicks are required."
  | some cpc, some cvr =>
    match budget_scenarios with
    | none => .error "budget_scenarios must be a non-empty list of positive numbers."
    | some budgets =>
      if budgets = [] then
        .error "budget_scenarios must be a non-empty list of positive numbers."
      else if ¬ (∀ b ∈ budgets, 0 < b) then
        .error "All budget scenarios must be positive numbers."
      else if cpc ≤ 0 then
        .error "Current CPC must be greater than zero."
      else if ¬ (0 ≤ cvr ∧ cvr ≤ 1) then
        .error "Current CVR (Click-based) must be between 0 (0%) and 1 (100%)."
      else
        .ok (budgets.map (fun budget =>
          let projected_clicks := budget / cpc
          let projected_conversions := projected_clicks * cvr
          let projected_spend := budget
          let projected_cpa :=
            if 0 < projected_conversions then budget / projected_conversions else 0
          { budget := pyRound budget 2
            projected_clicks := pyRound projected_clicks 0
            projected_spend := pyRound projected_spend 2
            projected_conversions := pyRound projected_conversions 2
            projected_cpa := pyRound projected_cpa 2 }))

/-! ### Spend anomaly detector (src/routes/ai_insights.py, lines 15-100)

Only the detection outcome is modelled: which branch fired and the
direction of the anomaly.  The message text and the echoed
campaign/platform/date metadata of the returned dict are not modelled.
`np.std` is a square root, so every comparison against it is expressed
by the equivalent comparison of squares (`sqrtGtQ`, `gtMulSqrt`). -/

inductive SpendAnomaly where
  | highStd
  | lowStd
  | lowDrop
deriving DecidableEq, Repr

def analyzeCampaignSpendForAnomalies (daily_spends_list : List ℚ)
    (most_recent_day_spend : ℚ) : Option SpendAnomaly :=
  if daily_spends_list.length < 7 then none
  else
    let mean_spend := listMean daily_spends_list
    let var_spend := popVar daily_spends_list
    if sqrtGtQ var_spend (mean_spend * (5/100)) || decide (mean_spend = 0) then
      if gtMulSqrt (most_recent_day_spend - mean_spend) var_spend then some .highStd
      else if gtMulSqrt (mean_spend - most_recent_day_spend) var_spend then some .lowStd
      else none
    else if 10 < mean_spend ∧ most_recent_day_spend < mean_spend * (1/10) then
      some .lowDrop
    else none

/-! ### Fetch-window dates (src/routes/integration.py, lines 118-119 and 850-851)

Dates are modelled as integer day numbers; `date.today()` is the
parameter `today`.  Both vendors receive an inclusive date range
(GAQL `BETWEEN`, Meta `time_range` since/until). -/

def googleAdsStartDate (today : ℤ) : ℤ := today - 7
def googleAdsEndDate (today : ℤ) : ℤ := today
def metaAdsSinceDate (today : ℤ) : ℤ := today - 7
def metaAdsUntilDate (today : ℤ) : ℤ := today

/-- The list of days in an inclusive integer range. -/
def inclusiveDays (s e : ℤ) : List ℤ :=
  (List.range (e - s + 1).toNat).map (fun n : ℕ => s + (n : ℤ))

/-- The set of days the Google Ads GAQL query covers. -/
def googleAdsQueryWindow (today : ℤ) : List ℤ :=
  inclusiveDays (googleAdsStartDate today) (googleAdsEndDate today)

/-- The set of days the Meta insights time_range covers. -/
def metaAdsQueryWindow (today : ℤ) : List ℤ :=
  inclusiveDays (metaAdsSinceDate today) (metaAdsUntilDate today)

/-! ### Breakdown normalizers (src/routes/integration.py)

Google Ads rows carry typed segment enums (lines 167-202); the enum
constructors below cover the values the source tests for plus the
catch-all values that fall through to "unknown".  Meta rows carry free
strings (lines 885-892): a missing field defaults to "unknown" and only
the device dimension is rewritten, by case-insensitive substring tests.
Python substring tests `a in b` are expressed via `String.splitOn`:
the separator occurs in the string iff splitting on it yields at least
two pieces. -/

inductive GoogleDevice where
  | mobile | desktop | tablet | connectedTv | other | unknownDevice | unspecified
deriving DecidableEq, Repr

inductive GoogleAgeRange where
  | r18_24 | r25_34 | r35_44 | r45_54 | r55_64 | r65_up | undetermined | unknownAge | unspecified
deriving DecidableEq, Repr

inductive GoogleGender where
  | female | male | undetermined | unknownGender | unspecified
deriving DecidableEq, Repr

/-- `charsStartWith h n`: the char list `h` starts with `n`. -/
def charsStartWith : List Char → List Char → Bool
  | _, [] => true
  | [], _ :: _ => false
  | c :: cs, d :: ds => c = d && charsStartWith cs ds

/-- `charsContains h n`: `n` occurs as a contiguous sublist of `h`. -/
def charsContains : List Char → List Char → Bool
  | [], n => n.isEmpty
  | c :: rest, n => charsStartWith (c :: rest) n || charsContains rest n

/-- True iff `needle` occurs as a substring of `haystack` (Python `in`). -/
def strContains (haystack needle : String) : Bool :=
  charsContains haystack.data needle.data

/-- Python `str.lower()`, restricted to the character-wise lowering
relevant for the ASCII vendor enums. -/
def strToLower (s : String) : String := ⟨s.data.map Char.toLower⟩

def googleNormalizeDevice : GoogleDevice → String
  | .mobile => "mobile"
  | .desktop => "desktop"
  | .tablet => "tablet"
  | .connectedTv => "connected_tv"
  | _ => "unknown"

/-- Lines 178-185: extract the country code suffix from a
"countries/XX" resource name; everything else becomes "unknown".
The empty string models a falsy `geo_target_country`. -/
def googleParseCountry (resourceName : String) : String :=
  if resourceName ≠ "" ∧ strContains resourceName "countries/" then
    (resourceName.splitOn "/").getLastD ""
  else "unknown"

/-- Lines 188-194 of the source map only these three age buckets (the
remaining buckets are elided there behind a comment); everything else
falls through to "unknown". -/
def googleNormalizeAgeRange : GoogleAgeRange → String
  | .r18_24 => "18-24"
  | .r25_34 => "25-34"
  | .r65_up => "65+"
  | _ => "unknown"

def googleNormalizeGender : GoogleGender → String
  | .female => "female"
  | .male => "male"
  | .undetermined => "undetermined"
  | _ => "unknown"

/-- Lines 885-892: the Meta device value after the substring rewrites.
A value matching none of the three tests is kept verbatim. -/
def metaNormalizeDevice (v : String) : String :=
  if strContains (strToLower v) "mobile" then "mobile"
  else if strContains (strToLower v) "desktop" then "desktop"
  else if strContains (strToLower v) "tablet" then "tablet"
  else v

/-- `item.get(field, 'unknown')`: a missing breakdown field defaults to
"unknown"; a present one is passed through. -/
def metaBreakdownValue (field : Option String) : String := field.getD "unknown"

/-- The canonical device vocabulary of the specification. -/
def deviceCanonical : List String := ["mobile", "desktop", "tablet", "connected_tv", "unknown"]

/-- The canonical gender vocabulary of the specification. -/
def genderCanonical : List String := ["male", "female", "undetermined", "unknown"]

/-- The canonical age vocabulary of the specification. -/
def ageCanonical : List String :=
  ["18-24", "25-34", "35-44", "45-54", "55-64", "65+", "unknown"]

/-! ### Campaign-fact store and upsert (src/routes/integration.py)

A `Fact` is one row of the campaign_data table (identifier columns,
denormalized campaign name, numeric metrics; the timestamp columns are
not modelled).  The store is the list of rows; the query-then-branch
upsert of the source (filter_by(...).first() then update, else
session.add) updates the first row matching the six-part key and
otherwise appends. -/

inductive Platform where
  | googleAds
  | metaAds
deriving DecidableEq, Repr

structure FactKey where
  integrationId : ℤ
  platform : Platform
  campaignId : String
  date : ℤ
  breakdownType : String
  breakdownValue : String
deriving DecidableEq, Repr

structure Metrics where
  impressions : ℤ
  clicks : ℤ
  spend : ℚ
  conversions : ℤ
deriving DecidableEq, Repr

structure Fact where
  key : FactKey
  campaignName : String
  metrics : Metrics
deriving DecidableEq, Repr

abbrev Store := List Fact

def upsert (k : FactKey) (name : String) (m : Metrics) : Store → Store
  | [] => [⟨k, name, m⟩]
  | f :: rest => if f.key = k then ⟨k, name, m⟩ :: rest else f :: upsert k name m rest

/-- All stored rows with exactly the key `k`. -/
def keyFacts (k : FactKey) (s : Store) : Store :=
  s.filter (fun f => decide (f.key = k))

def Metrics.add (a b : Metrics) : Metrics :=
  ⟨a.impressions + b.impressions, a.clicks + b.clicks, a.spend + b.spend,
   a.conversions + b.conversions⟩

def sumMetrics (l : List Fact) : Metrics :=
  l.foldl (fun acc f => acc.add f.metrics) ⟨0, 0, 0, 0⟩

/-- The filter of the rollup aggregation query: device-breakdown rows of
one (integration, platform, campaign, date) key. -/
def devicePred (i : ℤ) (pl : Platform) (c : String) (d : ℤ) (k : FactKey) : Bool :=
  decide (k.integrationId = i ∧ k.platform = pl ∧ k.campaignId = c ∧ k.date = d ∧
          k.breakdownType = "device")

def deviceFacts (i : ℤ) (pl : Platform) (c : String) (d : ℤ) (s : Store) : Store :=
  s.filter (fun f => devicePred i pl c d f.key)

def deviceSum (i : ℤ) (pl : Platform) (c : String) (d : ℤ) (s : Store) : Metrics :=
  sumMetrics (deviceFacts i pl c d s)

/-- The key of the synthetic rollup row. -/
def overallKey (i : ℤ) (pl : Platform) (c : String) (d : ℤ) : FactKey :=
  ⟨i, pl, c, d, "overall", "N/A"⟩

/-- Lines 333-377 (Google) and 1006-1051 (Meta): sum the stored device
rows of the key; when the SQL SUM returns no rows (NULL totals) skip,
otherwise upsert the overall/N-A row with the summed values. -/
def recomputeOverall (i : ℤ) (pl : Platform) (c : String) (d : ℤ) (name : String)
    (s : Store) : Store :=
  if deviceFacts i pl c d s = [] then s
  else upsert (overallKey i pl c d) name (deviceSum i pl c d s) s

/-- One breakdown-row write of the ingestion phase. -/
structure UpsertOp where
  key : FactKey
  name : String
  metrics : Metrics

def applyOps (ops : List UpsertOp) (s : Store) : Store :=
  ops.foldl (fun st op => upsert op.key op.name op.metrics st) s

/-- The rollup phase: one `recomputeOverall` per processed
(campaign id, date, campaign name) triple. -/
def applyRollups (i : ℤ) (pl : Platform) (pcds : List (String × ℤ × String))
    (s : Store) : Store :=
  pcds.foldl (fun st t => recomputeOverall i pl t.1 t.2.1 t.2.2 st) s

/-- A full ingestion run: all breakdown upserts, then all rollups. -/
def runIngestion (i : ℤ) (pl : Platform) (ops : List UpsertOp)
    (pcds : List (String × ℤ × String)) (s : Store) : Store :=
  applyRollups i pl pcds (applyOps ops s)

/-! ### The two platform fetchers as store transformers -/

/-- One row of the Google Ads search stream (campaign fields, the four
segment values, and the metrics; `conversions` is the float the API
reports, truncated by `int()` in the source). -/
structure GoogleAdsRow where
  campaignId : String
  campaignName : String
  date : ℤ
  device : GoogleDevice
  geoTargetCountry : String
  ageRange : GoogleAgeRange
  gender : GoogleGender
  impressions : ℤ
  clicks : ℤ
  costMicros : ℤ
  conversions : ℚ

/-- Lines 204-304: each API row upserts one fact per breakdown
dimension, all four carrying the same metrics. -/
def googleRowOps (i : ℤ) (r : GoogleAdsRow) : List UpsertOp :=
  let m : Metrics :=
    ⟨r.impressions, r.clicks, (r.costMicros : ℚ) / 1000000, pyInt r.conversions⟩
  [⟨⟨i, .googleAds, r.campaignId, r.date, "device", googleNormalizeDevice r.device⟩,
    r.campaignName, m⟩,
   ⟨⟨i, .googleAds, r.campaignId, r.date, "country", googleParseCountry r.geoTargetCountry⟩,
    r.campaignName, m⟩,
   ⟨⟨i, .googleAds, r.campaignId, r.date, "age_range", googleNormalizeAgeRange r.ageRange⟩,
    r.campaignName, m⟩,
   ⟨⟨i, .googleAds, r.campaignId, r.date, "gender", googleNormalizeGender r.gender⟩,
    r.campaignName, m⟩]

/-- google_ads_fetch_data, error-free path: process every stream row
(lines 159-307), then compute overall rollups for every processed
(campaign, date) pair (lines 333-377). -/
def googleAdsFetchStore (i : ℤ) (rows : List GoogleAdsRow) (s : Store) : Store :=
  runIngestion i .googleAds
    (rows.map (googleRowOps i)).flatten
    (rows.map (fun r => (r.campaignId, r.date, r.campaignName))) s

/-- One action entry of a Meta insights item. -/
structure MetaAction where
  actionType : String
  value : ℤ

/-- One item of a Meta insights response for one breakdown call. -/
structure MetaInsightItem where
  campaignId : String
  campaignName : Option String
  dateStart : ℤ
  breakdownValue : Option String
  impressions : ℤ
  clicks : ℤ
  spend : ℚ
  actions : List MetaAction

/-- Lines 901-910: sum the value of purchase-flavoured action types. -/
def metaConversions (actions : List MetaAction) : ℤ :=
  actions.foldl (fun acc a =>
    if strContains a.actionType "purchase" ∨
       strContains a.actionType "offsite_conversion.fb_pixel_purchase" ∨
       strContains a.actionType "omni_purchase" ∨
       strContains a.actionType "website_purchase"
    then acc + a.value else acc) 0

/-- The fallback campaign name `f'Campaign {campaign_id}'`. -/
def metaCampaignName (item : MetaInsightItem) : String :=
  item.campaignName.getD ("Campaign " ++ item.campaignId)

/-- Lines 881-936 (_process_and_store_meta_breakdown): the upsert
performed for one item of one breakdown call. -/
def metaItemOp (i : ℤ) (breakdownTypeStr : String) (item : MetaInsightItem) : UpsertOp :=
  let bv0 := metaBreakdownValue item.breakdownValue
  let bv := if breakdownTypeStr = "device" then metaNormalizeDevice bv0 else bv0
  ⟨⟨i, .metaAds, item.campaignId, item.dateStart, breakdownTypeStr, bv⟩,
   metaCampaignName item,
   ⟨item.impressions, item.clicks, item.spend, metaConversions item.actions⟩⟩

/-- meta_ads_fetch_data, error-free path: the four breakdown calls in
configuration order (lines 941-1001), then overall rollups for the
(campaign, date) pairs of the device call (lines 1004-1051). -/
def metaAdsFetchStore (i : ℤ)
    (deviceItems countryItems ageItems genderItems : List MetaInsightItem)
    (s : Store) : Store :=
  runIngestion i .metaAds
    (deviceItems.map (metaItemOp i "device") ++
     countryItems.map (metaItemOp i "country") ++
     ageItems.map (metaItemOp i "age_range") ++
     genderItems.map (metaItemOp i "gender"))
    (deviceItems.map (fun it => (it.campaignId, it.dateStart, metaCampaignName it))) s

/-- The per-key rollup invariant of the specification: a key with no
device rows has no overall row; a key with device rows has overall rows
whose single member carries exactly the summed device metrics. -/
def PerKeyInv (i : ℤ) (pl : Platform) (c : String) (d : ℤ) (s : Store) : Prop :=
  (deviceFacts i pl c d s = [] → keyFacts (overallKey i pl c d) s = []) ∧
  (deviceFacts i pl c d s ≠ [] →
    (keyFacts (overallKey i pl c d) s).map Fact.metrics = [deviceSum i pl c d s])

/-- The global rollup invariant over every key. -/
def RollupInv (s : Store) : Prop :=
  ∀ (i : ℤ) (pl : Platform) (c : String) (d : ℤ), PerKeyInv i pl c d s

/-! ### Metric changes and top movers (src/routes/ai_insights.py)

A period map sends a (campaign id, platform value) key to the entry the
route builds from the aggregation query (`name` nullable, `total`).
Python `sorted` is a stable sort; it is modelled by stable insertion
sort (`sortBy`), whose output any stable sort agrees with. -/

structure PeriodEntry where
  name : Option String
  total : ℚ
deriving DecidableEq

/-- One element of the list `calculate_metric_changes` returns. -/
structure MetricChange where
  campaignId : String
  campaignName : String
  platform : String
  currentValue : ℚ
  previousValue : ℚ
  absoluteChange : ℚ
  percentageChange : ℚ
  metric : String
deriving DecidableEq, Repr

/-- Python `a or dflt` on an optional string: the empty string is falsy. -/
def pyOrStr (a : Option String) (dflt : String) : String :=
  match a with
  | some s => if s = "" then dflt else s
  | none => dflt

/-- Lines 237-274 (calculate_metric_changes). -/
def calculateMetricChanges (allCampaignKeys : List (String × String))
    (currentDataMap prevDataMap : String × String → Option PeriodEntry)
    (metricParamName : String) : List MetricChange :=
  allCampaignKeys.map (fun key =>
    let currentVal := ((currentDataMap key).map PeriodEntry.total).getD 0
    let prevVal := ((prevDataMap key).map PeriodEntry.total).getD 0
    let campaignName :=
      pyOrStr ((currentDataMap key).bind PeriodEntry.name)
        (pyOrStr ((prevDataMap key).bind PeriodEntry.name) ("Campaign ID: " ++ key.1))
    let absChange := currentVal - prevVal
    let percChange :=
      if prevVal ≠ 0 then absChange / prevVal * 100
      else if currentVal ≠ 0 then 100
      else 0
    { campaignId := key.1
      campaignName := campaignName
      platform := key.2
      currentValue := pyRound currentVal 2
      previousValue := pyRound prevVal 2
      absoluteChange := pyRound absChange 2
      percentageChange := pyRound percChange 1
      metric := metricParamName })

/-- Stable insertion of `a` before the first element `b` with
`le a b = true`. -/
def insertBy (le : α → α → Bool) (a : α) : List α → List α
  | [] => [a]
  | b :: l => if le a b then a :: b :: l else b :: insertBy le a l

/-- Stable insertion sort; agrees with Python `sorted` for the
corresponding comparison. -/
def sortBy (le : α → α → Bool) : List α → List α
  | [] => []
  | b :: l => insertBy le b (sortBy le l)

/-- `sorted(changes, key=absolute_change, reverse=True)` (line 361):
stable descending sort. -/
def sortedByAbsDesc (changes : List MetricChange) : List MetricChange :=
  sortBy (fun a b => decide (b.absoluteChange ≤ a.absoluteChange)) changes

/-- Line 364: positive entries of the descending list, first five. -/
def topGainers (changes : List MetricChange) : List MetricChange :=
  ((sortedByAbsDesc changes).filter (fun c => decide (0 < c.absoluteChange))).take 5

/-- Line 366: negative entries re-sorted ascending, first five. -/
def topDecliners (changes : List MetricChange) : List MetricChange :=
  (sortBy (fun a b => decide (a.absoluteChange ≤ b.absoluteChange))
    ((sortedByAbsDesc changes).filter (fun c => decide (c.absoluteChange < 0)))).take 5

/-! ### Subscription state machine (src/routes/billing.py, stripe_webhook)

The local billing tables are a list of users and a list of
subscriptions; timestamps are integer epoch seconds.  The Stripe
objects a handler reads (session payload, the retrieved subscription,
line-item price) are carried by the event record; an absent optional
field models the corresponding missing payload field or failed
retrieve.  Paths that return 4xx/5xx before any commit leave the state
unchanged. -/

inductive SubStatus where
  | active | cancelled | pastDue | trialing | incomplete | incompleteExpired | unpaid
deriving DecidableEq, Repr

/-- SubscriptionStatusEnum.from_stripe_status. -/
def fromStripeStatus (s : String) : Option SubStatus :=
  if strToLower s = "active" then some .active
  else if strToLower s = "trialing" then some .trialing
  else if strToLower s = "past_due" then some .pastDue
  else if strToLower s = "canceled" then some .cancelled
  else if strToLower s = "unpaid" then some .unpaid
  else if strToLower s = "incomplete" then some .incomplete
  else if strToLower s = "incomplete_expired" then some .incompleteExpired
  else none

structure UserRec where
  id : ℕ
  stripeCustomerId : Option String
deriving DecidableEq

structure PlanRec where
  id : ℕ
  stripePriceId : String
deriving DecidableEq

structure SubRec where
  userId : ℕ
  planId : ℕ
  stripeSubscriptionId : Option String
  status : SubStatus
  startDate : ℤ
  endDate : Option ℤ
  stripeCustomerId : Option String
deriving DecidableEq, Repr

structure BillingState where
  users : List UserRec
  subs : List SubRec
deriving DecidableEq

/-- The data of one checkout.session.completed event, together with the
Stripe objects the handler retrieves while processing it. -/
structure CheckoutCompletedEvent where
  clientReferenceId : Option ℕ
  subscription : Option String
  customer : Option String
  priceId : Option String
  subCurrentPeriodEnd : ℤ
  subStartDate : ℤ
  subTrialEnd : Option ℤ
deriving DecidableEq

def findUser (users : List UserRec) (uid : ℕ) : Option UserRec :=
  users.find? (fun u => decide (u.id = uid))

def findPlanByPrice (plans : List PlanRec) (pid : String) : Option PlanRec :=
  plans.find? (fun p => decide (p.stripePriceId = pid))

/-- The subscription rows carrying one provider subscription id. -/
def subsWithId (sid : String) (l : List SubRec) : List SubRec :=
  l.filter (fun sb => decide (sb.stripeSubscriptionId = some sid))

/-- `user.stripe_customer_id` write-through of lines 338-340, applied to
the user row with the given id. -/
def setCustomerId (uid : ℕ) (cid : String) (users : List UserRec) : List UserRec :=
  users.map (fun u => if u.id = uid then { u with stripeCustomerId := some cid } else u)

/-- Lines 376-384: mark every other non-terminal subscription of the
user as cancelled. -/
def cancelOtherSubs (uid : ℕ) (sid : String) (l : List SubRec) : List SubRec :=
  l.map (fun sb =>
    if sb.userId = uid ∧ sb.stripeSubscriptionId ≠ some sid ∧
       (sb.status = .active ∨ sb.status = .trialing ∨ sb.status = .pastDue)
    then { sb with status := .cancelled } else sb)

/-- Lines 318-430: the checkout.session.completed handler. -/
def processCheckoutCompleted (plans : List PlanRec) (now : ℤ)
    (e : CheckoutCompletedEvent) (st : BillingState) : BillingState :=
  match e.clientReferenceId, e.subscription, e.customer with
  | some uid, some sid, some cid =>
    match findUser st.users uid with
    | none => st
    | some _ =>
      if subsWithId sid st.subs ≠ [] then
        -- idempotency skip: only the customer-id update is committed
        { st with users := setCustomerId uid cid st.users }
      else
        match e.priceId with
        | none => st
        | some pid =>
          match findPlanByPrice plans pid with
          | none => st
          | some plan =>
            let pair : SubStatus × ℤ :=
              match e.subTrialEnd with
              | some te => if now < te then (.trialing, te) else (.active, e.subCurrentPeriodEnd)
              | none => (.active, e.subCurrentPeriodEnd)
            { users := setCustomerId uid cid st.users
              subs := cancelOtherSubs uid sid st.subs ++
                [{ userId := uid, planId := plan.id, stripeSubscriptionId := some sid,
                   status := pair.1, startDate := e.subStartDate, endDate := some pair.2,
                   stripeCustomerId := some cid }] }
  | _, _, _ => st

/-- The data of one customer.subscription.updated event. -/
structure SubscriptionUpdatedEvent where
  id : String
  cancelAtPeriodEnd : Bool
  status : String
  currentPeriodEnd : ℤ
  trialEnd : Option ℤ
  cancelAt : Option ℤ
  itemsPriceId : Option String
deriving DecidableEq

/-- Replace the first element satisfying `p` by `x`. -/
def replaceFirst (p : α → Bool) (x : α) : List α → List α
  | [] => []
  | a :: l => if p a then x :: l else a :: replaceFirst p x l

def findSubById (sid : String) (l : List SubRec) : Option SubRec :=
  l.find? (fun sb => decide (sb.stripeSubscriptionId = some sid))

/-- Lines 588-592: sync the current period end into end_date. -/
def updSyncEndDate (e : SubscriptionUpdatedEvent) (sb : SubRec) : SubRec :=
  { sb with endDate := some e.currentPeriodEnd }

/-- Lines 594-604: sync the plan when the payload price id differs from
the locally referenced plan's price id and a matching plan exists. -/
def updSyncPlan (plans : List PlanRec) (e : SubscriptionUpdatedEvent) (sb : SubRec) : SubRec :=
  match e.itemsPriceId with
  | none => sb
  | some pid =>
    match plans.find? (fun p => decide (p.id = sb.planId)) with
    | none => sb
    | some curPlan =>
      if curPlan.stripePriceId ≠ pid then
        match findPlanByPrice plans pid with
        | some np => { sb with planId := np.id }
        | none => sb
      else sb

/-- Lines 606-617: sync the status from the payload, refusing to move a
cancelled subscription to a non-cancelled status. -/
def updSyncStatus (e : SubscriptionUpdatedEvent) (sb : SubRec) : SubRec :=
  match fromStripeStatus e.status with
  | none => sb
  | some ns =>
    if sb.status ≠ ns then
      if sb.status = .cancelled ∧ ns ≠ .cancelled then sb
      else { sb with status := ns }
    else sb

/-- Lines 620-634: trial end handling for subscriptions left trialing. -/
def updSyncTrial (e : SubscriptionUpdatedEvent) (sb : SubRec) : SubRec :=
  if sb.status = .trialing then
    match e.trialEnd with
    | some te => if sb.endDate ≠ some te then { sb with endDate := some te } else sb
    | none => { sb with status := .active, endDate := some e.currentPeriodEnd }
  else sb

/-- Lines 586-634: the field updates of the generic
customer.subscription.updated branch, applied to the found row. -/
def updatedSubscription (plans : List PlanRec) (e : SubscriptionUpdatedEvent)
    (sb : SubRec) : SubRec :=
  updSyncTrial e (updSyncStatus e (updSyncPlan plans e (updSyncEndDate e sb)))

/-- Lines 492-535 and 569-646: the customer.subscription.updated
handler, covering both the cancel-at-period-end branch and the generic
branch. -/
def processSubscriptionUpdated (plans : List PlanRec)
    (e : SubscriptionUpdatedEvent) (st : BillingState) : BillingState :=
  if e.cancelAtPeriodEnd then
    match findSubById e.id st.subs with
    | none => st
    | some sb =>
      if sb.status = .cancelled then st
      else
        let newEnd : Option ℤ :=
          match e.cancelAt with
          | some ts => some ts
          | none => sb.endDate
        let sb' := { sb with status := SubStatus.cancelled, endDate := newEnd }
        { st with subs :=
            replaceFirst (fun x => decide (x.stripeSubscriptionId = some e.id)) sb' st.subs }
  else
    match findSubById e.id st.subs with
    | none => st
    | some sb =>
      { st with subs :=
          (replaceFirst (fun x => decide (x.stripeSubscriptionId = some e.id))
            (updatedSubscription plans e sb) st.subs) }

/-- At most one stored overall row per key (consequence of the unique
constraint / the upsert discipline). -/
def OverallAtMostOne (s : Store) : Prop :=
  ∀ (i : ℤ) (pl : Platform) (c : String) (d : ℤ),
    (keyFacts (overallKey i pl c d) s).length ≤ 1

/-- No overall row exists for a key without device rows. -/
def NoOrphanOverall (s : Store) : Prop :=
  ∀ (i : ℤ) (pl : Platform) (c : String) (d : ℤ),
    deviceFacts i pl c d s = [] → keyFacts (overallKey i pl c d) s = []

/-! ## Theorems -/

theorem filter_upsert_neg (P : FactKey → Bool) (k : FactKey) (n : String) (m : Metrics)
    (hP : P k = false) (s : Store) :
    (upsert k n m s).filter (fun f => P f.key) = s.filter (fun f => P f.key) := by
  induction s with
  | nil => simp [upsert, hP]
  | cons f t ih =>
    by_cases h : f.key = k
    · simp [upsert, h, hP]
    · simp only [upsert, if_neg h, List.filter_cons, ih]

theorem filter_upsert_nil (P : FactKey → Bool) (k : FactKey) (n : String) (m : Metrics)
    (s : Store) (h : (upsert k n m s).filter (fun f => P f.key) = []) :
    s.filter (fun f => P f.key) = [] := by
  induction s with
  | nil => rfl
  | cons f t ih =>
    by_cases hk : f.key = k
    · simp only [upsert, if_pos hk, List.filter_cons] at h ⊢
      rcases hPk : P k with _ | _
      · rw [hk]; simpa [hPk] using h
      · simp [hPk] at h
    · simp only [upsert, if_neg hk, List.filter_cons] at h ⊢
      rcases hPf : P f.key with _ | _
      · simp only [hPf, cond_false] at h ⊢
        exact ih h
      · simp [hPf] at h

theorem keyFacts_upsert_self (k : FactKey) (n : String) (m : Metrics) (s : Store) :
    keyFacts k (upsert k n m s) = ⟨k, n, m⟩ :: (keyFacts k s).tail := by
  induction s with
  | nil => simp [upsert, keyFacts]
  | cons f t ih =>
    by_cases h : f.key = k
    · simp [upsert, keyFacts, h]
    · simp only [upsert, if_neg h, keyFacts, List.filter_cons] at ih ⊢
      simp [h, ih]

theorem keyFacts_upsert_ne (k k' : FactKey) (n : String) (m : Metrics) (s : Store)
    (h : k ≠ k') : keyFacts k' (upsert k n m s) = keyFacts k' s := by
  unfold keyFacts
  exact filter_upsert_neg (fun x => decide (x = k')) k n m (by simp [h]) s

theorem upsert_idem (k : FactKey) (n : String) (m : Metrics) (s : Store) :
    upsert k n m (upsert k n m s) = upsert k n m s := by
  induction s with
  | nil => simp [upsert]
  | cons f t ih =>
    by_cases h : f.key = k
    · simp [upsert, h]
    · simp [upsert, h, ih]

/-- C2: the metric upsert is idempotent.  Calling it any number N ≥ 1 of
times with identical arguments yields the same store as calling it once,
and when the store respects the uniqueness invariant (at most one row
per key) the result holds exactly one row for the key, carrying the
written campaign name and metrics. -/
theorem upsert_idempotent_unique (k : FactKey) (n : String) (m : Metrics) (s : Store)
    (N : ℕ) (hN : 1 ≤ N) (huniq : (keyFacts k s).length ≤ 1) :
    (upsert k n m)^[N] s = upsert k n m s ∧
    keyFacts k (upsert k n m s) = [⟨k, n, m⟩] := by
  constructor
  · induction N with
    | zero => omega
    | succ N ih =>
      rcases Nat.eq_or_lt_of_le hN with h1 | h1
      · simp [← h1]
      · have hN' : 1 ≤ N := by omega
        rw [Function.iterate_succ_apply', ih hN', upsert_idem]
  · rw [keyFacts_upsert_self]
    rcases hkf : keyFacts k s with _ | ⟨f, t⟩
    · rfl
    · rw [hkf] at huniq
      simp at huniq
      simp [huniq]

/-- Witness for C2 at a concrete key, store and N = 3. -/
theorem upsert_idempotent_unique_witness :
    (upsert ⟨1, .googleAds, "c", 0, "device", "mobile"⟩ "Camp" ⟨1, 1, 1, 1⟩)^[3] [] =
      upsert ⟨1, .googleAds, "c", 0, "device", "mobile"⟩ "Camp" ⟨1, 1, 1, 1⟩ [] ∧
    keyFacts ⟨1, .googleAds, "c", 0, "device", "mobile"⟩
      (upsert ⟨1, .googleAds, "c", 0, "device", "mobile"⟩ "Camp" ⟨1, 1, 1, 1⟩ []) =
      [⟨⟨1, .googleAds, "c", 0, "device", "mobile"⟩, "Camp", ⟨1, 1, 1, 1⟩⟩] :=
  upsert_idempotent_unique _ "Camp" ⟨1, 1, 1, 1⟩ [] 3 (by decide) (by decide)

theorem devicePred_overallKey (i : ℤ) (pl : Platform) (c : String) (d : ℤ)
    (i' : ℤ) (pl' : Platform) (c' : String) (d' : ℤ) :
    devicePred i pl c d (overallKey i' pl' c' d') = false := by
  simp only [devicePred, overallKey, decide_eq_false_iff_not]
  rintro ⟨-, -, -, -, h⟩
  exact absurd h (by decide)

theorem overallKey_inj (i : ℤ) (pl : Platform) (c : String) (d : ℤ)
    (i' : ℤ) (pl' : Platform) (c' : String) (d' : ℤ) :
    overallKey i pl c d = overallKey i' pl' c' d' ↔ (i = i' ∧ pl = pl' ∧ c = c' ∧ d = d') := by
  simp [overallKey, FactKey.mk.injEq]

theorem deviceFacts_recompute (i : ℤ) (pl : Platform) (c : String) (d : ℤ)
    (i' : ℤ) (pl' : Platform) (c' : String) (d' : ℤ) (name : String) (s : Store) :
    deviceFacts i pl c d (recomputeOverall i' pl' c' d' name s) = deviceFacts i pl c d s := by
  unfold recomputeOverall
  split
  · rfl
  · exact filter_upsert_neg _ _ _ _ (devicePred_overallKey i pl c d i' pl' c' d') s

theorem keyFacts_recompute_ne (i : ℤ) (pl : Platform) (c : String) (d : ℤ)
    (i' : ℤ) (pl' : Platform) (c' : String) (d' : ℤ) (name : String) (s : Store)
    (h : overallKey i pl c d ≠ overallKey i' pl' c' d') :
    keyFacts (overallKey i' pl' c' d') (recomputeOverall i pl c d name s) =
      keyFacts (overallKey i' pl' c' d') s := by
  unfold recomputeOverall
  split
  · rfl
  · exact keyFacts_upsert_ne _ _ _ _ _ h

theorem recompute_overallAtMostOne (i : ℤ) (pl : Platform) (c : String) (d : ℤ)
    (name : String) (s : Store) (h : OverallAtMostOne s) :
    OverallAtMostOne (recomputeOverall i pl c d name s) := by
  intro i' pl' c' d'
  unfold recomputeOverall
  split
  · exact h i' pl' c' d'
  · by_cases hk : overallKey i pl c d = overallKey i' pl' c' d'
    · rw [← hk, keyFacts_upsert_self]
      have hlen := h i pl c d
      have htail := List.length_tail (keyFacts (overallKey i pl c d) s)
      simp only [List.length_cons]
      omega
    · rw [keyFacts_upsert_ne _ _ _ _ _ hk]
      exact h i' pl' c' d'

theorem recompute_noOrphan (i : ℤ) (pl : Platform) (c : String) (d : ℤ)
    (name : String) (s : Store) (h : NoOrphanOverall s) :
    NoOrphanOverall (recomputeOverall i pl c d name s) := by
  intro i' pl' c' d' hdev
  rw [deviceFacts_recompute] at hdev
  unfold recomputeOverall
  split
  · exact h i' pl' c' d' hdev
  · rename_i hne
    by_cases hk : overallKey i pl c d = overallKey i' pl' c' d'
    · rw [overallKey_inj] at hk
      obtain ⟨h1, h2, h3, h4⟩ := hk
      subst h1; subst h2; subst h3; subst h4
      exact absurd hdev hne
    · rw [keyFacts_upsert_ne _ _ _ _ _ hk]
      exact h i' pl' c' d' hdev

theorem applyRollups_spec (i : ℤ) (pl : Platform) :
    ∀ (pcds : List (String × ℤ × String)) (s : Store),
      OverallAtMostOne s → NoOrphanOverall s →
      ∀ (i' : ℤ) (pl' : Platform) (c' : String) (d' : ℤ),
        ((i' = i ∧ pl' = pl ∧ (c', d') ∈ pcds.map (fun t => (t.1, t.2.1))) →
          PerKeyInv i' pl' c' d' (applyRollups i pl pcds s)) ∧
        (¬ (i' = i ∧ pl' = pl ∧ (c', d') ∈ pcds.map (fun t => (t.1, t.2.1))) →
          keyFacts (overallKey i' pl' c' d') (applyRollups i pl pcds s) =
            keyFacts (overallKey i' pl' c' d') s ∧
          deviceFacts i' pl' c' d' (applyRollups i pl pcds s) =
            deviceFacts i' pl' c' d' s) := by
  intro pcds
  induction pcds with
  | nil =>
    intro s _ _ i' pl' c' d'
    refine ⟨?_, fun _ => ⟨rfl, rfl⟩⟩
    rintro ⟨-, -, h⟩
    simp at h
  | cons t rest ih =>
    intro s haux hemp i' pl' c' d'
    have hfold : applyRollups i pl (t :: rest) s =
        applyRollups i pl rest (recomputeOverall i pl t.1 t.2.1 t.2.2 s) := rfl
    have haux1 : OverallAtMostOne (recomputeOverall i pl t.1 t.2.1 t.2.2 s) :=
      recompute_overallAtMostOne _ _ _ _ _ _ haux
    have hemp1 : NoOrphanOverall (recomputeOverall i pl t.1 t.2.1 t.2.2 s) :=
      recompute_noOrphan _ _ _ _ _ _ hemp
    obtain ⟨hin, hout⟩ :=
      ih (recomputeOverall i pl t.1 t.2.1 t.2.2 s) haux1 hemp1 i' pl' c' d'
    constructor
    · rintro ⟨hi, hpl, hmem⟩
      subst hi; subst hpl
      by_cases hrest : (c', d') ∈ rest.map (fun t => (t.1, t.2.1))
      · rw [hfold]; exact hin ⟨rfl, rfl, hrest⟩
      · have hcd : c' = t.1 ∧ d' = t.2.1 := by
          simp only [List.map_cons, List.mem_cons] at hmem
          rcases hmem with h | h
          · exact ⟨(Prod.ext_iff.1 h).1, (Prod.ext_iff.1 h).2⟩
          · exact absurd h hrest
        obtain ⟨hc, hd⟩ := hcd
        subst hc; subst hd
        obtain ⟨hkeq, hdeq⟩ := hout (by rintro ⟨-, -, hr⟩; exact hrest hr)
        rw [hfold]
        by_cases hD : deviceFacts i' pl' t.1 t.2.1 s = []
        · have hs1 : recomputeOverall i' pl' t.1 t.2.1 t.2.2 s = s := by
            unfold recomputeOverall; rw [if_pos hD]
          rw [hs1] at hkeq hdeq ⊢
          constructor
          · intro _
            rw [hkeq]
            exact hemp _ _ _ _ hD
          · intro hcontra
            rw [hdeq] at hcontra
            exact absurd hD hcontra
        · have hs1 : recomputeOverall i' pl' t.1 t.2.1 t.2.2 s =
              upsert (overallKey i' pl' t.1 t.2.1) t.2.2 (deviceSum i' pl' t.1 t.2.1 s) s := by
            unfold recomputeOverall; rw [if_neg hD]
          have hdev1 : deviceFacts i' pl' t.1 t.2.1
              (recomputeOverall i' pl' t.1 t.2.1 t.2.2 s) = deviceFacts i' pl' t.1 t.2.1 s :=
            deviceFacts_recompute i' pl' t.1 t.2.1 i' pl' t.1 t.2.1 t.2.2 s
          have hkey1 : keyFacts (overallKey i' pl' t.1 t.2.1)
              (recomputeOverall i' pl' t.1 t.2.1 t.2.2 s) =
              [⟨overallKey i' pl' t.1 t.2.1, t.2.2, deviceSum i' pl' t.1 t.2.1 s⟩] := by
            rw [hs1, keyFacts_upsert_self]
            rcases hkf : keyFacts (overallKey i' pl' t.1 t.2.1) s with _ | ⟨f, tl⟩
            · rfl
            · have hlen := haux i' pl' t.1 t.2.1
              rw [hkf] at hlen
              simp only [List.length_cons] at hlen
              have : tl = [] := List.length_eq_zero.1 (by omega)
              simp [this]

          constructor
          · intro hcontra
            rw [hdeq, hdev1] at hcontra
            exact absurd hcontra hD
          · intro _
            rw [hkeq, hkey1]
            have hsum : deviceSum i' pl' t.1 t.2.1
                (applyRollups i' pl' rest (recomputeOverall i' pl' t.1 t.2.1 t.2.2 s)) =
                deviceSum i' pl' t.1 t.2.1 s := by
              unfold deviceSum
              rw [hdeq, hdev1]
            rw [hsum]
            simp
    · intro hnot
      rw [hfold]
      have hnotrest : ¬ (i' = i ∧ pl' = pl ∧ (c', d') ∈ rest.map (fun t => (t.1, t.2.1))) := by
        rintro ⟨h1, h2, h3⟩
        exact hnot ⟨h1, h2, by simp only [List.map_cons, List.mem_cons]; right; exact h3⟩
      obtain ⟨hkeq, hdeq⟩ := hout hnotrest
      refine ⟨?_, ?_⟩
      · rw [hkeq]
        by_cases hk : overallKey i pl t.1 t.2.1 = overallKey i' pl' c' d'
        · rw [overallKey_inj] at hk
          refine absurd ⟨hk.1.symm, hk.2.1.symm, ?_⟩ hnot
          simp only [List.map_cons, List.mem_cons]
          left
          rw [← hk.2.2.1, ← hk.2.2.2]
        · exact keyFacts_recompute_ne i pl t.1 t.2.1 i' pl' c' d' t.2.2 s hk
      · rw [hdeq]
        exact deviceFacts_recompute i' pl' c' d' i pl t.1 t.2.1 t.2.2 s

theorem applyOps_filter_neg (P : FactKey → Bool) :
    ∀ (ops : List UpsertOp) (s : Store), (∀ op ∈ ops, P op.key = false) →
      (applyOps ops s).filter (fun f => P f.key) = s.filter (fun f => P f.key) := by
  intro ops
  induction ops with
  | nil => intro s _; rfl
  | cons op rest ih =>
    intro s h
    have hstep : applyOps (op :: rest) s = applyOps rest (upsert op.key op.name op.metrics s) := rfl
    rw [hstep, ih _ (fun o ho => h o (List.mem_cons_of_mem _ ho)),
        filter_upsert_neg _ _ _ _ (h op (List.mem_cons_self _ _)) s]

theorem applyOps_filter_nil (P : FactKey → Bool) :
    ∀ (ops : List UpsertOp) (s : Store),
      (applyOps ops s).filter (fun f => P f.key) = [] →
      s.filter (fun f => P f.key) = [] := by
  intro ops
  induction ops with
  | nil => intro s h; exact h
  | cons op rest ih =>
    intro s h
    exact filter_upsert_nil P _ _ _ s (ih _ h)

theorem applyOps_keyFacts_overall (i : ℤ) (pl : Platform) (c : String) (d : ℤ)
    (ops : List UpsertOp) (s : Store)
    (H1 : ∀ op ∈ ops, op.key.breakdownType ≠ "overall") :
    keyFacts (overallKey i pl c d) (applyOps ops s) = keyFacts (overallKey i pl c d) s := by
  unfold keyFacts
  apply applyOps_filter_neg (fun x => decide (x = overallKey i pl c d))
  intro op hop
  simp only [decide_eq_false_iff_not]
  intro hEq
  exact H1 op hop (by rw [hEq]; rfl)

theorem applyOps_deviceFacts_neg (i : ℤ) (pl : Platform) (c : String) (d : ℤ)
    (ops : List UpsertOp) (s : Store)
    (H : ∀ op ∈ ops, devicePred i pl c d op.key = false) :
    deviceFacts i pl c d (applyOps ops s) = deviceFacts i pl c d s :=
  applyOps_filter_neg (devicePred i pl c d) ops s H

/-- An error-free ingestion run preserves the rollup invariant, given
that every write of the breakdown phase targets a non-overall breakdown
type, and every device-breakdown write belongs to a processed
(campaign, date) pair of this run. -/
theorem runIngestion_preservesRollupInv (i : ℤ) (pl : Platform) (ops : List UpsertOp)
    (pcds : List (String × ℤ × String))
    (H1 : ∀ op ∈ ops, op.key.breakdownType ≠ "overall")
    (H2 : ∀ op ∈ ops, op.key.breakdownType = "device" →
      op.key.integrationId = i ∧ op.key.platform = pl ∧
      (op.key.campaignId, op.key.date) ∈ pcds.map (fun t => (t.1, t.2.1)))
    (s : Store) (Hinv : RollupInv s) :
    RollupInv (runIngestion i pl ops pcds s) := by
  have hkeys : ∀ (i' : ℤ) (pl' : Platform) (c' : String) (d' : ℤ),
      keyFacts (overallKey i' pl' c' d') (applyOps ops s) =
      keyFacts (overallKey i' pl' c' d') s :=
    fun i' pl' c' d' => applyOps_keyFacts_overall i' pl' c' d' ops s H1
  have haux : OverallAtMostOne (applyOps ops s) := by
    intro i' pl' c' d'
    rw [hkeys]
    obtain ⟨he, hne⟩ := Hinv i' pl' c' d'
    by_cases hD : deviceFacts i' pl' c' d' s = []
    · rw [he hD]; simp
    · have hmap := hne hD
      have hlen := congrArg List.length hmap
      simp only [List.length_map, List.length_cons, List.length_nil] at hlen
      omega
  have hemp : NoOrphanOverall (applyOps ops s) := by
    intro i' pl' c' d' hD
    rw [hkeys]
    exact (Hinv i' pl' c' d').1 (applyOps_filter_nil _ ops s hD)
  intro i' pl' c' d'
  obtain ⟨hin, hout⟩ := applyRollups_spec i pl pcds (applyOps ops s) haux hemp i' pl' c' d'
  by_cases ht : i' = i ∧ pl' = pl ∧ (c', d') ∈ pcds.map (fun t => (t.1, t.2.1))
  · exact hin ht
  · obtain ⟨hkeq, hdeq⟩ := hout ht
    have hnodev : ∀ op ∈ ops, devicePred i' pl' c' d' op.key = false := by
      intro op hop
      rcases hpp : devicePred i' pl' c' d' op.key with _ | _
      · rfl
      · exfalso
        rw [devicePred, decide_eq_true_eq] at hpp
        obtain ⟨e1, e2, e3, e4, e5⟩ := hpp
        obtain ⟨f1, f2, f3⟩ := H2 op hop e5
        exact ht ⟨by rw [← e1, f1], by rw [← e2, f2], by rw [← e3, ← e4]; exact f3⟩
    have hdev1 : deviceFacts i' pl' c' d' (applyOps ops s) = deviceFacts i' pl' c' d' s :=
      applyOps_deviceFacts_neg i' pl' c' d' ops s hnodev
    obtain ⟨he, hne⟩ := Hinv i' pl' c' d'
    unfold runIngestion
    constructor
    · intro h0
      rw [hdeq, hdev1] at h0
      rw [hkeq, hkeys]
      exact he h0
    · intro h0
      rw [hdeq, hdev1] at h0
      rw [hkeq, hkeys]
      have hsum : deviceSum i' pl' c' d' (applyRollups i pl pcds (applyOps ops s)) =
          deviceSum i' pl' c' d' s := by
        unfold deviceSum
        rw [hdeq, hdev1]
      rw [hsum]
      exact hne h0

/-- C1: after an error-free ingestion run of either platform fetcher,
starting from any store satisfying the rollup invariant (as every store
produced only by ingestion runs does, the empty store included), every
key with at least one device-breakdown fact has exactly one
overall/N-A fact whose metrics are the componentwise sums over the
stored device-breakdown facts of that key, and keys without
device-breakdown facts have no overall fact. -/
theorem ingestion_rollup_invariant :
    (∀ (i : ℤ) (rows : List GoogleAdsRow) (s : Store),
      RollupInv s → RollupInv (googleAdsFetchStore i rows s)) ∧
    (∀ (i : ℤ) (deviceItems countryItems ageItems genderItems : List MetaInsightItem)
      (s : Store),
      RollupInv s → RollupInv (metaAdsFetchStore i deviceItems countryItems ageItems genderItems s)) := by
  constructor
  · intro i rows s hinv
    apply runIngestion_preservesRollupInv
    · intro op hop
      simp only [List.mem_flatten, List.mem_map] at hop
      obtain ⟨L, ⟨r, hr, rfl⟩, hopL⟩ := hop
      simp only [googleRowOps, List.mem_cons, List.not_mem_nil, or_false] at hopL
      rcases hopL with rfl | rfl | rfl | rfl <;> simp
    · intro op hop hdev
      simp only [List.mem_flatten, List.mem_map] at hop
      obtain ⟨L, ⟨r, hr, rfl⟩, hopL⟩ := hop
      simp only [googleRowOps, List.mem_cons, List.not_mem_nil, or_false] at hopL
      rcases hopL with rfl | rfl | rfl | rfl
      · refine ⟨rfl, rfl, ?_⟩
        simp only [List.map_map, List.mem_map]
        exact ⟨r, hr, rfl⟩
      · simp at hdev
      · simp at hdev
      · simp at hdev
    · exact hinv
  · intro i di ci ai gi s hinv
    apply runIngestion_preservesRollupInv
    · intro op hop
      simp only [List.mem_append, List.mem_map] at hop
      rcases hop with ((⟨it, hit, rfl⟩ | ⟨it, hit, rfl⟩) | ⟨it, hit, rfl⟩) | ⟨it, hit, rfl⟩ <;>
        simp [metaItemOp]
    · intro op hop hdev
      simp only [List.mem_append, List.mem_map] at hop
      rcases hop with ((⟨it, hit, rfl⟩ | ⟨it, hit, rfl⟩) | ⟨it, hit, rfl⟩) | ⟨it, hit, rfl⟩
      · refine ⟨rfl, rfl, ?_⟩
        simp only [List.map_map, List.mem_map]
        exact ⟨it, hit, rfl⟩
      · simp [metaItemOp] at hdev
      · simp [metaItemOp] at hdev
      · simp [metaItemOp] at hdev
    · exact hinv

/-- Witness for C1: a concrete Google Ads run over the empty store. -/
theorem ingestion_rollup_invariant_witness :
    RollupInv (googleAdsFetchStore 1
      [⟨"c7", "Camp", 0, .mobile, "countries/US", .r18_24, .female, 10, 2, 5000000, 1⟩] []) :=
  ingestion_rollup_invariant.1 1
    [⟨"c7", "Camp", 0, .mobile, "countries/US", .r18_24, .female, 10, 2, 5000000, 1⟩] []
    (fun _ _ _ _ => ⟨fun _ => rfl, fun h => absurd rfl h⟩)

/-- C3 counterexample: on baseline [100]*7 with recent value 10 the
detector returns no anomaly, because the significant-drop branch
requires the recent value to be strictly below 0.1 times the mean and
10 < 0.1 * 100 is false. -/
theorem anomaly_recent_ten_counterexample :
    analyzeCampaignSpendForAnomalies (List.replicate 7 100) 10 = none := by
  have hrep : List.replicate 7 (100 : ℚ) = [100, 100, 100, 100, 100, 100, 100] := rfl
  have hmean : listMean [100, 100, 100, 100, 100, 100, 100] = (100 : ℚ) := by
    norm_num [listMean]
  have hvar : popVar [100, 100, 100, 100, 100, 100, 100] = (0 : ℚ) := by
    norm_num [popVar, listMean]
  rw [hrep]
  simp only [analyzeCampaignSpendForAnomalies, hmean, hvar]
  norm_num [sqrtGtQ, gtMulSqrt]

/-- C3 amended: on baseline [100]*7 the detector flags a low anomaly
through the significant-drop branch exactly for recent values strictly
below 10 = 0.1 * mean; at recent value 10 itself it returns none. -/
theorem anomaly_drop_branch_strict (r : ℚ) (h : r < 10) :
    analyzeCampaignSpendForAnomalies (List.replicate 7 100) r =
      some SpendAnomaly.lowDrop := by
  have hrep : List.replicate 7 (100 : ℚ) = [100, 100, 100, 100, 100, 100, 100] := rfl
  have hmean : listMean [100, 100, 100, 100, 100, 100, 100] = (100 : ℚ) := by
    norm_num [listMean]
  have hvar : popVar [100, 100, 100, 100, 100, 100, 100] = (0 : ℚ) := by
    norm_num [popVar, listMean]
  have hten : (100 : ℚ) * (1/10) = 10 := by norm_num
  rw [hrep]
  simp only [analyzeCampaignSpendForAnomalies, hmean, hvar]
  rw [if_neg (by norm_num)]
  rw [if_neg (by norm_num [sqrtGtQ])]
  rw [if_pos ⟨by norm_num, by rw [hten]; exact h⟩]

/-- Witness for the amended C3 at recent value 9. -/
theorem anomaly_drop_branch_strict_witness :
    analyzeCampaignSpendForAnomalies (List.replicate 7 100) 9 =
      some SpendAnomaly.lowDrop :=
  anomaly_drop_branch_strict 9 (by norm_num)

/-- C4 counterexample: at today = 0 the submitted window ends at day 0
(today itself), covers 8 days, and differs from the 7-day window that
ends yesterday. -/
theorem fetch_window_counterexample :
    googleAdsEndDate 0 = 0 ∧ metaAdsUntilDate 0 = 0 ∧
    (0 : ℤ) ∈ googleAdsQueryWindow 0 ∧ (0 : ℤ) ∈ metaAdsQueryWindow 0 ∧
    googleAdsQueryWindow 0 ≠ inclusiveDays (0 - 7) (0 - 1) ∧
    (googleAdsQueryWindow 0).length ≠ 7 := by decide

/-- C4 amended: on both platforms every fetch submits the inclusive
range from today - 7 through today: it contains today and spans 8
days, not the 7 days ending yesterday. -/
theorem fetch_window_eight_days_incl_today (t : ℤ) :
    googleAdsStartDate t = t - 7 ∧ googleAdsEndDate t = t ∧
    metaAdsSinceDate t = t - 7 ∧ metaAdsUntilDate t = t ∧
    (googleAdsQueryWindow t).length = 8 ∧ (metaAdsQueryWindow t).length = 8 ∧
    t ∈ googleAdsQueryWindow t ∧ t ∈ metaAdsQueryWindow t := by
  have hlen : (t - (t - 7) + 1).toNat = 8 := by omega
  have hwin : googleAdsQueryWindow t = (List.range 8).map (fun n : ℕ => (t - 7) + (n : ℤ)) := by
    unfold googleAdsQueryWindow inclusiveDays googleAdsStartDate googleAdsEndDate
    rw [hlen]
  have hwin' : metaAdsQueryWindow t = (List.range 8).map (fun n : ℕ => (t - 7) + (n : ℤ)) := by
    unfold metaAdsQueryWindow inclusiveDays metaAdsSinceDate metaAdsUntilDate
    rw [hlen]
  have hmem : t ∈ (List.range 8).map (fun n : ℕ => (t - 7) + (n : ℤ)) := by
    simp only [List.mem_map, List.mem_range]
    exact ⟨7, by omega, by push_cast; ring⟩
  refine ⟨rfl, rfl, rfl, rfl, ?_, ?_, ?_, ?_⟩
  · rw [hwin]; simp
  · rw [hwin']; simp
  · rw [hwin]; exact hmem
  · rw [hwin']; exact hmem

/-- C5 counterexample: the Meta device normalizer passes an unmapped
vendor value through verbatim instead of degrading it to "unknown",
so the stored value leaves the canonical device vocabulary. -/
theorem meta_device_passthrough_counterexample :
    metaNormalizeDevice "smart_tv" = "smart_tv" ∧
    "smart_tv" ∉ deviceCanonical := by decide

/-- C5 amended: the Google normalizers always land in the canonical
vocabularies and degrade unmapped enum values to "unknown" (the age
mapping of this source covers only 18-24, 25-34 and 65+); the Meta
normalizer substitutes "unknown" only for a missing field, rewrites
device values containing mobile/desktop/tablet, and passes every other
vendor string through unchanged (country, age and gender are pure
passthrough). -/
theorem breakdown_normalizer_behaviour :
    (∀ d : GoogleDevice, googleNormalizeDevice d ∈ deviceCanonical) ∧
    (∀ g : GoogleGender, googleNormalizeGender g ∈ genderCanonical) ∧
    (∀ a : GoogleAgeRange, googleNormalizeAgeRange a ∈ ageCanonical) ∧
    (∀ s : String, ¬ strContains s "countries/" = true → googleParseCountry s = "unknown") ∧
    (metaBreakdownValue none = "unknown") ∧
    (∀ v : String, metaBreakdownValue (some v) = v) ∧
    (∀ v : String, metaNormalizeDevice v ∈ deviceCanonical ∨ metaNormalizeDevice v = v) := by
  refine ⟨?_, ?_, ?_, ?_, rfl, fun _ => rfl, ?_⟩
  · intro d; cases d <;> decide
  · intro g; cases g <;> decide
  · intro a; cases a <;> decide
  · intro s h
    unfold googleParseCountry
    rw [if_neg]
    rintro ⟨-, hc⟩
    exact h hc
  · intro v
    unfold metaNormalizeDevice
    split
    · left; decide
    · split
      · left; decide
      · split
        · left; decide
        · right; rfl

/-- C8: the budget simulator maps cpc = 2, cvr = 0.05, budget = 100 to
projected clicks 50, conversions 2.5, spend 100 and cpa 40; and any
payload whose cpc is nonpositive, whose cvr leaves [0, 1], or whose
scenario list contains a nonpositive entry is rejected with an error
and no scenarios. -/
theorem budget_simulator_correct :
    budgetSimulator (some 2) (some (1/20)) (some [100]) =
      .ok [⟨100, 50, 100, 5/2, 40⟩] ∧
    ∀ (cpc cvr : ℚ) (budgets : List ℚ),
      (cpc ≤ 0 ∨ cvr < 0 ∨ 1 < cvr ∨ ∃ b ∈ budgets, b ≤ 0) →
      ∃ msg, budgetSimulator (some cpc) (some cvr) (some budgets) = .error msg := by
  constructor
  · simp only [budgetSimulator]
    norm_num [pyRound, roundHalfEven]
  · intro cpc cvr budgets h
    simp only [budgetSimulator]
    by_cases hb : budgets = []
    · exact ⟨_, by rw [if_pos hb]⟩
    · rw [if_neg hb]
      by_cases hpos : ∀ b ∈ budgets, 0 < b
      · rw [if_neg (by simpa using hpos)]
        by_cases hcpc : cpc ≤ 0
        · exact ⟨_, by rw [if_pos hcpc]⟩
        · rw [if_neg hcpc]
          have hcvr : ¬ (0 ≤ cvr ∧ cvr ≤ 1) := by
            rcases h with h | h | h | ⟨b, hbmem, hble⟩
            · exact absurd h hcpc
            · rintro ⟨h0, -⟩; linarith
            · rintro ⟨-, h1⟩; linarith
            · exact absurd (hpos b hbmem) (by linarith)
          exact ⟨_, by rw [if_pos hcvr]⟩
      · exact ⟨_, by rw [if_pos (by simpa using hpos)]⟩

/-- Witness for C8: a nonpositive cpc is rejected. -/
theorem budget_simulator_correct_witness :
    ∃ msg, budgetSimulator (some 0) (some (1/2)) (some [100]) = .error msg :=
  budget_simulator_correct.2 0 (1/2) [100] (Or.inl (by norm_num))

/-- C10: the simulator computes projected conversions and cpa from the
unrounded click count while reporting clicks rounded; at cpc = 3,
cvr = 0.05, budget = 100 the returned conversions 1.67 differ from
the returned clicks times cvr (33 * 0.05 = 1.65), and the returned
cpa 60 differs from the cpa the rounded clicks would give. -/
theorem budget_simulator_unrounded_basis :
    budgetSimulator (some 3) (some (1/20)) (some [100]) =
      .ok [⟨100, 33, 100, 167/100, 60⟩] ∧
    (167/100 : ℚ) ≠ 33 * (1/20) ∧
    (60 : ℚ) ≠ pyRound (100 / (33 * (1/20))) 2 := by
  have hf1 : Int.fract ((100 : ℚ) / 3) = 1/3 := by unfold Int.fract; norm_num
  have hf2 : Int.fract ((500 : ℚ) / 3) = 2/3 := by unfold Int.fract; norm_num
  have hf3 : Int.fract ((200000 : ℚ) / 33) = 20/33 := by unfold Int.fract; norm_num
  refine ⟨?_, by norm_num, ?_⟩
  · simp only [budgetSimulator]
    norm_num [pyRound, roundHalfEven]
    all_goals simp only [hf1, hf2, hf3]
    all_goals norm_num
  · norm_num [pyRound, roundHalfEven]

section StableSortLemmas

variable {α : Type}

theorem insertBy_eq_cons (le : α → α → Bool) (a : α) :
    ∀ M, (∀ x ∈ M, le a x = true) → insertBy le a M = a :: M := by
  intro M h
  cases M with
  | nil => rfl
  | cons b t => simp only [insertBy, if_pos (h b (List.mem_cons_self b t))]

theorem mem_insertBy (le : α → α → Bool) (a x : α) :
    ∀ M, x ∈ insertBy le a M ↔ x = a ∨ x ∈ M := by
  intro M
  induction M with
  | nil => simp [insertBy]
  | cons b t ih =>
    by_cases h : le a b = true <;> simp [insertBy, h, ih] <;> tauto

theorem pairwise_insertBy (le : α → α → Bool)
    (htot : ∀ a b, le a b = true ∨ le b a = true)
    (htrans : ∀ a b c, le a b = true → le b c = true → le a c = true) (a : α) :
    ∀ M, List.Pairwise (fun x y => le x y = true) M →
      List.Pairwise (fun x y => le x y = true) (insertBy le a M) := by
  intro M
  induction M with
  | nil => intro _; simp [insertBy]
  | cons b t ih =>
    intro hs
    obtain ⟨hb, ht⟩ := List.pairwise_cons.1 hs
    by_cases hab : le a b = true
    · simp only [insertBy, if_pos hab]
      refine List.pairwise_cons.2 ⟨?_, hs⟩
      intro x hx
      rcases List.mem_cons.1 hx with rfl | hxm
      · exact hab
      · exact htrans a b x hab (hb x hxm)
    · simp only [insertBy, if_neg hab]
      refine List.pairwise_cons.2 ⟨?_, ih ht⟩
      intro x hx
      rcases (mem_insertBy le a x t).1 hx with hxa | hxm
      · rw [hxa]
        rcases htot a b with h | h
        · exact absurd h hab
        · exact h
      · exact hb x hxm

theorem pairwise_sortBy (le : α → α → Bool)
    (htot : ∀ a b, le a b = true ∨ le b a = true)
    (htrans : ∀ a b c, le a b = true → le b c = true → le a c = true) :
    ∀ l, List.Pairwise (fun x y => le x y = true) (sortBy le l) := by
  intro l
  induction l with
  | nil => simp [sortBy]
  | cons b t ih => exact pairwise_insertBy le htot htrans b _ ih

theorem filter_insertBy (le : α → α → Bool)
    (htrans : ∀ a b c, le a b = true → le b c = true → le a c = true)
    (p : α → Bool) (a : α) :
    ∀ M, List.Pairwise (fun x y => le x y = true) M →
      (insertBy le a M).filter p =
        if p a then insertBy le a (M.filter p) else M.filter p := by
  intro M
  induction M with
  | nil =>
    intro _
    by_cases hpa : p a = true <;> simp [insertBy, List.filter_cons, hpa]
  | cons c M' ih =>
    intro hs
    obtain ⟨hc, hs'⟩ := List.pairwise_cons.1 hs
    by_cases hac : le a c = true
    · simp only [insertBy, if_pos hac]
      by_cases hpa : p a = true
      · rw [if_pos hpa]
        have hall : ∀ x ∈ (c :: M').filter p, le a x = true := by
          intro x hx
          have hx' := List.mem_of_mem_filter hx
          rcases List.mem_cons.1 hx' with rfl | hxm
          · exact hac
          · exact htrans a c x hac (hc x hxm)
        rw [insertBy_eq_cons le a _ hall]
        simp [List.filter_cons, hpa]
      · rw [if_neg hpa]
        simp [List.filter_cons, hpa]
    · simp only [insertBy, if_neg hac]
      rw [List.filter_cons, List.filter_cons, ih hs']
      rcases hpa : p a with _ | _ <;> rcases hpc : p c with _ | _ <;>
        simp [hpa, hpc, insertBy, hac]

theorem filter_sortBy (le : α → α → Bool)
    (htot : ∀ a b, le a b = true ∨ le b a = true)
    (htrans : ∀ a b c, le a b = true → le b c = true → le a c = true)
    (p : α → Bool) :
    ∀ l, (sortBy le l).filter p = sortBy le (l.filter p) := by
  intro l
  induction l with
  | nil => rfl
  | cons b t ih =>
    have hsorted := pairwise_sortBy le htot htrans t
    simp only [sortBy, List.filter_cons]
    rw [filter_insertBy le htrans p b _ hsorted, ih]
    by_cases hpb : p b = true <;> simp [hpb, sortBy]

theorem insertBy_asc_swap (k : α → ℚ) (a c : α) (h : k a < k c) :
    ∀ s, insertBy (fun x y => decide (k x ≤ k y)) c
           (insertBy (fun x y => decide (k x ≤ k y)) a s) =
         insertBy (fun x y => decide (k x ≤ k y)) a
           (insertBy (fun x y => decide (k x ≤ k y)) c s) := by
  intro s
  induction s with
  | nil => simp [insertBy, h.le, not_le.2 h]
  | cons d t ih =>
    rcases le_or_lt (k a) (k d) with had | had <;> rcases le_or_lt (k c) (k d) with hcd | hcd
    · simp [insertBy, had, hcd, h.le, not_le.2 h]
    · simp [insertBy, had, not_le.2 hcd, h.le, not_le.2 h]
    · exfalso; linarith
    · simp [insertBy, not_le.2 had, not_le.2 hcd, ih]

theorem sortBy_asc_insertBy_desc (k : α → ℚ) (a : α) :
    ∀ m, sortBy (fun x y => decide (k x ≤ k y))
           (insertBy (fun x y => decide (k y ≤ k x)) a m) =
         sortBy (fun x y => decide (k x ≤ k y)) (a :: m) := by
  intro m
  induction m with
  | nil => rfl
  | cons c m' ih =>
    by_cases hca : k c ≤ k a
    · simp [insertBy, hca]
    · have hac : k a < k c := not_le.1 hca
      have hstep : insertBy (fun x y => decide (k y ≤ k x)) a (c :: m') =
          c :: insertBy (fun x y => decide (k y ≤ k x)) a m' := by
        simp [insertBy, hca]
      rw [hstep]
      simp only [sortBy]
      rw [ih]
      simp only [sortBy]
      exact insertBy_asc_swap k a c hac _

theorem sortBy_asc_sortBy_desc (k : α → ℚ) :
    ∀ l, sortBy (fun x y => decide (k x ≤ k y))
           (sortBy (fun x y => decide (k y ≤ k x)) l) =
         sortBy (fun x y => decide (k x ≤ k y)) l := by
  intro l
  induction l with
  | nil => rfl
  | cons b t ih =>
    simp only [sortBy]
    rw [show sortBy (fun x y => decide (k x ≤ k y))
          (insertBy (fun x y => decide (k y ≤ k x))
            b (sortBy (fun x y => decide (k y ≤ k x)) t)) =
        sortBy (fun x y => decide (k x ≤ k y))
          (b :: sortBy (fun x y => decide (k y ≤ k x)) t) from
      sortBy_asc_insertBy_desc k b _]
    simp only [sortBy]
    rw [ih]

end StableSortLemmas

theorem percentage_change_formula (cur prev : ℚ) :
    (if prev ≠ 0 then (cur - prev) / prev * 100 else if cur ≠ 0 then (100 : ℚ) else 0) =
    (if prev = 0 then (if cur = 0 then 0 else 100) else 100 * (cur - prev) / prev) := by
  by_cases hp : prev = 0
  · by_cases hc : cur = 0 <;> simp [hp, hc]
  · simp only [hp, ne_eq, not_false_eq_true, if_true, if_false, if_neg]
    rw [div_mul_eq_mul_div, mul_comm]

/-- C9 counterexample: the returned percentage_change field is rounded
to one decimal place, so for current 50 and previous 75 the calculator
returns -33.3, not the exact 100 * (50 - 75) / 75 = -33.333... of the
claim. -/
theorem metric_change_rounding_counterexample :
    calculateMetricChanges [("c1", "GoogleAds")]
        (fun _ => some ⟨some "A", 50⟩) (fun _ => some ⟨some "A", 75⟩) "spend" =
      [{ campaignId := "c1", campaignName := "A", platform := "GoogleAds",
         currentValue := 50, previousValue := 75, absoluteChange := -25,
         percentageChange := -333/10, metric := "spend" }] ∧
    (-333/10 : ℚ) ≠ 100 * (50 - 75) / 75 := by
  have hf : Int.fract ((-1000 : ℚ)/3) = 2/3 := by unfold Int.fract; norm_num
  have hne : ("A" : String) = "" ↔ False := by
    constructor
    · intro h; exact absurd h (by decide)
    · intro h; exact h.elim
  constructor
  · simp only [calculateMetricChanges, List.map_cons, List.map_nil]
    norm_num [pyOrStr, pyRound, roundHalfEven, hne, hf]
  · norm_num

/-- C9 amended: for every key the calculator emits a change record with
absolute_change = round2(current - previous) and percentage_change =
round1 of the claimed exact quotient (100 when previous is 0 and
current nonzero, 0 when both are 0) — i.e. the claimed formulae hold up
to the rounding the route applies (two decimals for absolute, one for
percentage) — and the top movers are exactly the first five of the
positive changes sorted descending by absolute_change, respectively the
first five of the negative changes sorted ascending. -/
theorem metric_changes_eqs_and_top_movers :
    (∀ (keys : List (String × String))
       (cm pm : String × String → Option PeriodEntry) (mn : String),
       ∀ key ∈ keys,
         ∃ ch ∈ calculateMetricChanges keys cm pm mn,
           ch.campaignId = key.1 ∧ ch.platform = key.2 ∧
           ch.absoluteChange =
             pyRound (((cm key).map PeriodEntry.total).getD 0 -
               ((pm key).map PeriodEntry.total).getD 0) 2 ∧
           ch.percentageChange =
             pyRound (if ((pm key).map PeriodEntry.total).getD 0 = 0 then
                 (if ((cm key).map PeriodEntry.total).getD 0 = 0 then 0 else 100)
               else
                 100 * (((cm key).map PeriodEntry.total).getD 0 -
                   ((pm key).map PeriodEntry.total).getD 0) /
                   ((pm key).map PeriodEntry.total).getD 0) 1) ∧
    (∀ changes : List MetricChange,
       topGainers changes =
         (sortBy (fun a b => decide (b.absoluteChange ≤ a.absoluteChange))
            (changes.filter (fun c => decide (0 < c.absoluteChange)))).take 5 ∧
       topDecliners changes =
         (sortBy (fun a b => decide (a.absoluteChange ≤ b.absoluteChange))
            (changes.filter (fun c => decide (c.absoluteChange < 0)))).take 5) := by
  have htotD : ∀ a b : MetricChange,
      decide (b.absoluteChange ≤ a.absoluteChange) = true ∨
      decide (a.absoluteChange ≤ b.absoluteChange) = true := by
    intro a b
    simpa using le_total b.absoluteChange a.absoluteChange
  have htransD : ∀ a b c : MetricChange,
      decide (b.absoluteChange ≤ a.absoluteChange) = true →
      decide (c.absoluteChange ≤ b.absoluteChange) = true →
      decide (c.absoluteChange ≤ a.absoluteChange) = true := by
    intro a b c hab hbc
    simp only [decide_eq_true_eq] at hab hbc ⊢
    exact le_trans hbc hab
  constructor
  · intro keys cm pm mn key hkey
    refine ⟨_, List.mem_map_of_mem _ hkey, rfl, rfl, rfl, ?_⟩
    exact congrArg (fun x => pyRound x 1)
      (percentage_change_formula (((cm key).map PeriodEntry.total).getD 0)
        (((pm key).map PeriodEntry.total).getD 0))
  · intro changes
    constructor
    · unfold topGainers sortedByAbsDesc
      rw [filter_sortBy _ htotD htransD _ changes]
    · unfold topDecliners sortedByAbsDesc
      rw [filter_sortBy _ htotD htransD _ changes]
      have h2 : sortBy (fun a b : MetricChange => decide (a.absoluteChange ≤ b.absoluteChange))
          (sortBy (fun a b : MetricChange => decide (b.absoluteChange ≤ a.absoluteChange))
            (changes.filter (fun c => decide (c.absoluteChange < 0)))) =
          sortBy (fun a b : MetricChange => decide (a.absoluteChange ≤ b.absoluteChange))
            (changes.filter (fun c => decide (c.absoluteChange < 0))) :=
        sortBy_asc_sortBy_desc (fun c : MetricChange => c.absoluteChange) _
      rw [h2]

/-- Witness for C9 at a singleton key list with empty period maps. -/
theorem metric_changes_eqs_and_top_movers_witness :
    ∃ ch ∈ calculateMetricChanges [("c1", "G")] (fun _ => (none : Option PeriodEntry))
        (fun _ => (none : Option PeriodEntry)) "spend",
      ch.campaignId = "c1" ∧ ch.platform = "G" ∧
      ch.absoluteChange = pyRound (((none : Option PeriodEntry).map PeriodEntry.total).getD 0 -
        ((none : Option PeriodEntry).map PeriodEntry.total).getD 0) 2 ∧
      ch.percentageChange =
        pyRound (if ((none : Option PeriodEntry).map PeriodEntry.total).getD 0 = 0 then
            (if ((none : Option PeriodEntry).map PeriodEntry.total).getD 0 = 0 then (0 : ℚ) else 100)
          else 100 * (((none : Option PeriodEntry).map PeriodEntry.total).getD 0 -
            ((none : Option PeriodEntry).map PeriodEntry.total).getD 0) /
            ((none : Option PeriodEntry).map PeriodEntry.total).getD 0) 1 :=
  metric_changes_eqs_and_top_movers.1 [("c1", "G")] (fun _ => none) (fun _ => none) "spend"
    ("c1", "G") (by simp)

theorem find?_replaceFirst {α : Type} (p : α → Bool) (x : α) (hx : p x = true) :
    ∀ l : List α, List.find? p (replaceFirst p x l) = (List.find? p l).map (fun _ => x) := by
  intro l
  induction l with
  | nil => rfl
  | cons a t ih =>
    by_cases h : p a = true
    · simp [replaceFirst, h, hx]
    · rw [replaceFirst, if_neg h, List.find?_cons_of_neg _ h, List.find?_cons_of_neg _ h, ih]

theorem updSyncEndDate_sid (e : SubscriptionUpdatedEvent) (sb : SubRec) :
    (updSyncEndDate e sb).stripeSubscriptionId = sb.stripeSubscriptionId := rfl

theorem updSyncPlan_sid (plans : List PlanRec) (e : SubscriptionUpdatedEvent) (sb : SubRec) :
    (updSyncPlan plans e sb).stripeSubscriptionId = sb.stripeSubscriptionId := by
  unfold updSyncPlan
  repeat' split
  all_goals rfl

theorem updSyncStatus_sid (e : SubscriptionUpdatedEvent) (sb : SubRec) :
    (updSyncStatus e sb).stripeSubscriptionId = sb.stripeSubscriptionId := by
  unfold updSyncStatus
  repeat' split
  all_goals rfl

theorem updSyncTrial_sid (e : SubscriptionUpdatedEvent) (sb : SubRec) :
    (updSyncTrial e sb).stripeSubscriptionId = sb.stripeSubscriptionId := by
  unfold updSyncTrial
  repeat' split
  all_goals rfl

theorem updatedSubscription_sid (plans : List PlanRec) (e : SubscriptionUpdatedEvent)
    (sb : SubRec) :
    (updatedSubscription plans e sb).stripeSubscriptionId = sb.stripeSubscriptionId := by
  unfold updatedSubscription
  rw [updSyncTrial_sid, updSyncStatus_sid, updSyncPlan_sid, updSyncEndDate_sid]

theorem updSyncEndDate_status (e : SubscriptionUpdatedEvent) (sb : SubRec) :
    (updSyncEndDate e sb).status = sb.status := rfl

theorem updSyncPlan_status (plans : List PlanRec) (e : SubscriptionUpdatedEvent) (sb : SubRec) :
    (updSyncPlan plans e sb).status = sb.status := by
  unfold updSyncPlan
  repeat' split
  all_goals rfl

theorem updSyncStatus_cancelled (e : SubscriptionUpdatedEvent) (sb : SubRec)
    (hc : sb.status = .cancelled) (hns : fromStripeStatus e.status ≠ some .cancelled) :
    (updSyncStatus e sb).status = .cancelled := by
  unfold updSyncStatus
  cases hm : fromStripeStatus e.status with
  | none => exact hc
  | some ns =>
    dsimp only
    have hnsc : ns ≠ .cancelled := by
      intro hcontra
      exact hns (by rw [hm, hcontra])
    by_cases hne : sb.status ≠ ns
    · rw [if_pos hne, if_pos ⟨hc, hnsc⟩]
      exact hc
    · rw [if_neg hne]
      exact hc

theorem updSyncTrial_cancelled (e : SubscriptionUpdatedEvent) (sb : SubRec)
    (hc : sb.status = .cancelled) : (updSyncTrial e sb).status = .cancelled := by
  unfold updSyncTrial
  rw [if_neg (by rw [hc]; intro hcontra; cases hcontra)]
  exact hc

theorem updatedSubscription_cancelled (plans : List PlanRec) (e : SubscriptionUpdatedEvent)
    (sb : SubRec) (hc : sb.status = .cancelled)
    (hns : fromStripeStatus e.status ≠ some .cancelled) :
    (updatedSubscription plans e sb).status = .cancelled := by
  unfold updatedSubscription
  apply updSyncTrial_cancelled
  apply updSyncStatus_cancelled
  · rw [updSyncPlan_status, updSyncEndDate_status]
    exact hc
  · exact hns

/-- C7: a generic customer.subscription.updated event whose payload
carries a non-cancelled status never moves a locally cancelled
subscription out of the cancelled state. -/
theorem cancelled_never_downgraded (plans : List PlanRec) (e : SubscriptionUpdatedEvent)
    (st : BillingState) (hcape : e.cancelAtPeriodEnd = false)
    (hfound : (findSubById e.id st.subs).map SubRec.status = some SubStatus.cancelled)
    (hns : fromStripeStatus e.status ≠ some SubStatus.cancelled) :
    (findSubById e.id (processSubscriptionUpdated plans e st).subs).map SubRec.status =
      some SubStatus.cancelled := by
  obtain ⟨sb, hsb, hst⟩ : ∃ sb, findSubById e.id st.subs = some sb ∧
      sb.status = SubStatus.cancelled := by
    cases hfb : findSubById e.id st.subs with
    | none => rw [hfb] at hfound; simp at hfound
    | some sb =>
      rw [hfb] at hfound
      refine ⟨sb, rfl, ?_⟩
      have hsome : some sb.status = some SubStatus.cancelled := hfound
      exact Option.some.inj hsome
  have hpred : (fun x : SubRec => decide (x.stripeSubscriptionId = some e.id))
      (updatedSubscription plans e sb) = true := by
    have hpsb := List.find?_some hsb
    simp only [decide_eq_true_eq] at hpsb ⊢
    rw [updatedSubscription_sid]
    exact hpsb
  unfold processSubscriptionUpdated
  rw [if_neg (by simp [hcape])]
  rw [hsb]
  unfold findSubById
  rw [find?_replaceFirst (fun x : SubRec => decide (x.stripeSubscriptionId = some e.id))
    (updatedSubscription plans e sb) hpred st.subs]
  have hfind : List.find? (fun sb => decide (sb.stripeSubscriptionId = some e.id)) st.subs =
      some sb := hsb
  rw [hfind]
  rw [Option.map_map]
  simp only [Option.map_some']
  rw [Function.comp_apply, updatedSubscription_cancelled plans e sb hst hns]

/-- Witness for C7: one cancelled subscription, an update event with
status active. -/
theorem cancelled_never_downgraded_witness :
    (findSubById "s1" (processSubscriptionUpdated []
      ⟨"s1", false, "active", 500, none, none, none⟩
      ⟨[], [⟨1, 1, some "s1", .cancelled, 0, some 10, none⟩]⟩).subs).map SubRec.status =
      some SubStatus.cancelled :=
  cancelled_never_downgraded [] ⟨"s1", false, "active", 500, none, none, none⟩
    ⟨[], [⟨1, 1, some "s1", .cancelled, 0, some 10, none⟩]⟩ rfl (by simp [findSubById]) (by decide)

theorem setCustomerId_idem (uid : ℕ) (cid : String) (users : List UserRec) :
    setCustomerId uid cid (setCustomerId uid cid users) = setCustomerId uid cid users := by
  unfold setCustomerId
  rw [List.map_map]
  apply List.map_congr_left
  intro u _
  by_cases h : u.id = uid <;> simp [h]

theorem findUser_setCustomerId (uid : ℕ) (cid : String) :
    ∀ users : List UserRec,
      findUser (setCustomerId uid cid users) uid =
        (findUser users uid).map (fun u => { u with stripeCustomerId := some cid }) := by
  intro users
  induction users with
  | nil => rfl
  | cons u t ih =>
    unfold findUser setCustomerId at ih ⊢
    rw [List.map_cons]
    by_cases h : u.id = uid
    · rw [if_pos h]
      rw [List.find?_cons_of_pos _ (by simp [h]), List.find?_cons_of_pos _ (by simp [h])]
      rfl
    · rw [if_neg h]
      rw [List.find?_cons_of_neg _ (by simp [h]), List.find?_cons_of_neg _ (by simp [h])]
      exact ih

theorem subsWithId_map_sid_preserving (sid' : String) (f : SubRec → SubRec)
    (hf : ∀ sb, (f sb).stripeSubscriptionId = sb.stripeSubscriptionId) :
    ∀ l : List SubRec, subsWithId sid' (l.map f) = (subsWithId sid' l).map f := by
  intro l
  induction l with
  | nil => rfl
  | cons sb t ih =>
    unfold subsWithId at ih ⊢
    rw [List.map_cons, List.filter_cons, List.filter_cons]
    have hp : (decide ((f sb).stripeSubscriptionId = some sid')) =
        (decide (sb.stripeSubscriptionId = some sid')) := by rw [hf]
    rw [hp]
    cases hd : decide (sb.stripeSubscriptionId = some sid') <;> simp [ih]

theorem cancelOtherSubs_preserves_sid (uid : ℕ) (sid : String) (sb : SubRec) :
    ((fun sb : SubRec =>
      if sb.userId = uid ∧ sb.stripeSubscriptionId ≠ some sid ∧
         (sb.status = SubStatus.active ∨ sb.status = SubStatus.trialing ∨
          sb.status = SubStatus.pastDue)
      then { sb with status := SubStatus.cancelled } else sb) sb).stripeSubscriptionId =
    sb.stripeSubscriptionId := by
  dsimp only
  split <;> rfl

theorem subsWithId_cancelOtherSubs (sid' : String) (uid : ℕ) (sid : String)
    (l : List SubRec) :
    subsWithId sid' (cancelOtherSubs uid sid l) =
      (subsWithId sid' l).map (fun sb =>
        if sb.userId = uid ∧ sb.stripeSubscriptionId ≠ some sid ∧
           (sb.status = SubStatus.active ∨ sb.status = SubStatus.trialing ∨
            sb.status = SubStatus.pastDue)
        then { sb with status := SubStatus.cancelled } else sb) :=
  subsWithId_map_sid_preserving sid' _ (cancelOtherSubs_preserves_sid uid sid) l

/-- C6: processing the same checkout.session.completed event is
idempotent — a second processing (and any N-fold replay) leaves the
state of the first processing unchanged, so no transition is applied
twice — and a first processing of an event whose subscription id is new
creates exactly one subscription row with that provider subscription
id. -/
theorem checkout_completed_idempotent :
    (∀ (plans : List PlanRec) (now : ℤ) (e : CheckoutCompletedEvent) (st : BillingState),
      processCheckoutCompleted plans now e (processCheckoutCompleted plans now e st) =
        processCheckoutCompleted plans now e st) ∧
    (∀ (plans : List PlanRec) (now : ℤ) (e : CheckoutCompletedEvent) (st : BillingState)
       (N : ℕ), 1 ≤ N →
      (processCheckoutCompleted plans now e)^[N] st = processCheckoutCompleted plans now e st) ∧
    (∀ (plans : List PlanRec) (now : ℤ) (e : CheckoutCompletedEvent) (st : BillingState)
       (uid : ℕ) (sid cid pid : String) (plan : PlanRec),
      e.clientReferenceId = some uid → e.subscription = some sid → e.customer = some cid →
      e.priceId = some pid → (findUser st.users uid).isSome = true →
      findPlanByPrice plans pid = some plan → subsWithId sid st.subs = [] →
      (subsWithId sid (processCheckoutCompleted plans now e st).subs).length = 1) := by
  have main : ∀ (plans : List PlanRec) (now : ℤ) (e : CheckoutCompletedEvent)
      (st : BillingState),
      processCheckoutCompleted plans now e (processCheckoutCompleted plans now e st) =
        processCheckoutCompleted plans now e st := by
    intro plans now e st
    cases hcr : e.clientReferenceId with
    | none =>
      have h1 : processCheckoutCompleted plans now e st = st := by
        simp only [processCheckoutCompleted, hcr]
      rw [h1]
      exact h1
    | some uid =>
    cases hsub : e.subscription with
    | none =>
      have h1 : processCheckoutCompleted plans now e st = st := by
        simp only [processCheckoutCompleted, hcr, hsub]
      rw [h1]
      exact h1
    | some sid =>
    cases hcust : e.customer with
    | none =>
      have h1 : processCheckoutCompleted plans now e st = st := by
        simp only [processCheckoutCompleted, hcr, hsub, hcust]
      rw [h1]
      exact h1
    | some cid =>
    cases hfu : findUser st.users uid with
    | none =>
      have h1 : processCheckoutCompleted plans now e st = st := by
        simp only [processCheckoutCompleted, hcr, hsub, hcust, hfu]
      rw [h1]
      exact h1
    | some u =>
      by_cases hex : subsWithId sid st.subs = []
      · cases hpid : e.priceId with
        | none =>
          have h1 : processCheckoutCompleted plans now e st = st := by
            simp only [processCheckoutCompleted, hcr, hsub, hcust, hfu, hpid]
            rw [if_neg (fun hcon => hcon hex)]
          rw [h1]
          exact h1
        | some pid =>
          cases hplan : findPlanByPrice plans pid with
          | none =>
            have h1 : processCheckoutCompleted plans now e st = st := by
              simp only [processCheckoutCompleted, hcr, hsub, hcust, hfu, hpid, hplan]
              rw [if_neg (fun hcon => hcon hex)]
            rw [h1]
            exact h1
          | some plan =>
            have h1 : processCheckoutCompleted plans now e st =
                ⟨setCustomerId uid cid st.users,
                 cancelOtherSubs uid sid st.subs ++
                  [{ userId := uid, planId := plan.id, stripeSubscriptionId := some sid,
                     status := (match e.subTrialEnd with
                       | some te => if now < te then (SubStatus.trialing, te)
                                    else (SubStatus.active, e.subCurrentPeriodEnd)
                       | none => (SubStatus.active, e.subCurrentPeriodEnd)).1,
                     startDate := e.subStartDate,
                     endDate := some (match e.subTrialEnd with
                       | some te => if now < te then (SubStatus.trialing, te)
                                    else (SubStatus.active, e.subCurrentPeriodEnd)
                       | none => (SubStatus.active, e.subCurrentPeriodEnd)).2,
                     stripeCustomerId := some cid }]⟩ := by
              simp only [processCheckoutCompleted, hcr, hsub, hcust, hfu, hpid, hplan]
              rw [if_neg (fun hcon => hcon hex)]
            rw [h1]
            have hfu2 : findUser (setCustomerId uid cid st.users) uid =
                some { u with stripeCustomerId := some cid } := by
              rw [findUser_setCustomerId, hfu]
              rfl
            have hne2 : subsWithId sid (cancelOtherSubs uid sid st.subs ++
                [{ userId := uid, planId := plan.id, stripeSubscriptionId := some sid,
                   status := (match e.subTrialEnd with
                     | some te => if now < te then (SubStatus.trialing, te)
                                  else (SubStatus.active, e.subCurrentPeriodEnd)
                     | none => (SubStatus.active, e.subCurrentPeriodEnd)).1,
                   startDate := e.subStartDate,
                   endDate := some (match e.subTrialEnd with
                     | some te => if now < te then (SubStatus.trialing, te)
                                  else (SubStatus.active, e.subCurrentPeriodEnd)
                     | none => (SubStatus.active, e.subCurrentPeriodEnd)).2,
                   stripeCustomerId := some cid }]) ≠ [] := by
              unfold subsWithId
              rw [List.filter_append]
              intro hcon
              rcases List.append_eq_nil.1 hcon with ⟨-, h2⟩
              simp [List.filter_cons] at h2
            simp only [processCheckoutCompleted, hcr, hsub, hcust]
            rw [hfu2]
            rw [if_pos hne2]
            rw [setCustomerId_idem]
      · have h1 : processCheckoutCompleted plans now e st =
            { st with users := setCustomerId uid cid st.users } := by
          simp only [processCheckoutCompleted, hcr, hsub, hcust, hfu]
          rw [if_pos hex]
        rw [h1]
        have hfu2 : findUser (setCustomerId uid cid st.users) uid =
            some { u with stripeCustomerId := some cid } := by
          rw [findUser_setCustomerId, hfu]
          rfl
        simp only [processCheckoutCompleted, hcr, hsub, hcust]
        rw [hfu2]
        rw [if_pos hex]
        rw [setCustomerId_idem]
  refine ⟨main, ?_, ?_⟩
  · intro plans now e st N hN
    induction N with
    | zero => omega
    | succ N ih =>
      rcases Nat.eq_or_lt_of_le hN with h1 | h1
      · simp [← h1]
      · have hN' : 1 ≤ N := by omega
        rw [Function.iterate_succ_apply', ih hN', main]
  · intro plans now e st uid sid cid pid plan hcr hsub hcust hpid hfu hplan hex
    obtain ⟨u, hu⟩ := Option.isSome_iff_exists.1 hfu
    simp only [processCheckoutCompleted, hcr, hsub, hcust, hu, hpid, hplan]
    rw [if_neg (fun hcon => hcon hex)]
    unfold subsWithId
    rw [List.filter_append]
    have hnil : List.filter (fun sb => decide (sb.stripeSubscriptionId = some sid))
        (cancelOtherSubs uid sid st.subs) = [] := by
      have := subsWithId_cancelOtherSubs sid uid sid st.subs
      unfold subsWithId at this hex
      rw [this, hex]
      rfl
    rw [hnil]
    simp

/-- Witness for C6 at a concrete event, plan catalog and state, N = 2. -/
theorem checkout_completed_idempotent_witness :
    (processCheckoutCompleted [⟨5, "price_1"⟩] 0
        ⟨some 1, some "sub_1", some "cus_1", some "price_1", 100, 0, none⟩)^[2]
        ⟨[⟨1, none⟩], []⟩ =
      processCheckoutCompleted [⟨5, "price_1"⟩] 0
        ⟨some 1, some "sub_1", some "cus_1", some "price_1", 100, 0, none⟩ ⟨[⟨1, none⟩], []⟩ ∧
    (subsWithId "sub_1" (processCheckoutCompleted [⟨5, "price_1"⟩] 0
        ⟨some 1, some "sub_1", some "cus_1", some "price_1", 100, 0, none⟩
        ⟨[⟨1, none⟩], []⟩).subs).length = 1 :=
  ⟨checkout_completed_idempotent.2.1 [⟨5, "price_1"⟩] 0
      ⟨some 1, some "sub_1", some "cus_1", some "price_1", 100, 0, none⟩
      ⟨[⟨1, none⟩], []⟩ 2 (by decide),
   checkout_completed_idempotent.2.2 [⟨5, "price_1"⟩] 0
      ⟨some 1, some "sub_1", some "cus_1", some "price_1", 100, 0, none⟩
      ⟨[⟨1, none⟩], []⟩ 1 "sub_1" "cus_1" "price_1" ⟨5, "price_1"⟩
      rfl rfl rfl rfl (by decide) (by decide) rfl⟩

end Analyzer
